import Mathlib

/-!
Verification of `check_environment.py`, a dependency-checking script.

The script (after its two module-level imports of `sys` and
`importlib`) is:

  packages = ["pandas", "IPython", "seaborn", "pyarrow"]

  bad = []
  for package in packages:
      try:
          importlib.import_module(package)
      except ImportError:
          bad.append(failure message for package)   # "Can\x27t import %s" % package
  else:
      if len(bad) > 0:
          print(newline-joined bad)
          sys.exit(1)

We embed it shallowly.  The environment is abstracted as a map from
package names to the outcome of `importlib.import_module` on that name:
success, an `ImportError` (the only exception class the `except` clause
catches; an unresolvable module raises `ModuleNotFoundError`, a subclass
of `ImportError`), or an exception of any other class (which the
`except ImportError` clause does not catch, so it propagates and aborts
the interpreter with exit status 1 and nothing on standard output).
-/

/-- Outcome of `importlib.import_module(name)` for one name in the
current environment. -/
inductive LoadOutcome
  | ok
  | importError
  | otherError
deriving DecidableEq, Repr

/-- An environment: what `importlib.import_module` does on each name. -/
def Env : Type := String → LoadOutcome

/-- The failure message the loop appends for a package: the Python
format expression applied to the package name. -/
def failMsg (package : String) : String := "Can\x27t import " ++ package

/-- The configured list, a fixed literal in the source. -/
def packages : List String := ["pandas", "IPython", "seaborn", "pyarrow"]

/-- How the `for` loop over the package list ends: `completed` (the loop
ran to the end, so the `else` clause of the `for` statement runs),
`broke` (a hypothetical `break`, which skips the `else` clause — the
loop body contains no `break`, and we prove this constructor is never
produced), or `raised` (an uncaught exception propagated out of the
loop body). -/
inductive LoopExit
  | completed (bad : List String)
  | broke (bad : List String)
  | raised (name : String)
deriving DecidableEq, Repr

/-- The `for package in packages:` loop, carrying the accumulator `bad`.
On `ImportError` the message is appended and the loop continues; on any
other exception the loop is exited by propagation. -/
def importLoop (env : Env) (bad : List String) : List String → LoopExit
  | [] => .completed bad
  | p :: ps =>
    match env p with
    | .ok => importLoop env bad ps
    | .importError => importLoop env (bad ++ [failMsg p]) ps
    | .otherError => .raised p

/-- Observable result of one run of the script: the lines written to
standard output, the process exit status, and whether the process was
aborted by an uncaught exception (in which case the traceback goes to
standard error, standard output stays empty, and the interpreter exits
with status 1). -/
structure RunResult where
  stdoutLines : List String
  exitCode : Nat
  uncaught : Bool
deriving DecidableEq, Repr

/-- The body of the `else` clause:
`if len(bad) > 0:` print the newline-join of `bad` and `sys.exit(1)`.
`print` of the join writes exactly the lines of `bad`; falling off the
end of the script exits with status 0. -/
def reportPhase (bad : List String) : RunResult :=
  if bad.length > 0 then
    { stdoutLines := bad, exitCode := 1, uncaught := false }
  else
    { stdoutLines := [], exitCode := 0, uncaught := false }

/-- The whole script, for a given package list: run the loop; the
`else` clause runs exactly when the loop completed without `break`; a
`break` would fall through to the end of the script (exit 0); an
uncaught exception aborts the process. -/
def checkEnvironment (env : Env) (pkgs : List String) : RunResult :=
  match importLoop env [] pkgs with
  | .completed bad => reportPhase bad
  | .broke _ => { stdoutLines := [], exitCode := 0, uncaught := false }
  | .raised _ => { stdoutLines := [], exitCode := 1, uncaught := true }

/-- The script as shipped: zero-argument entry point over the fixed
literal `packages` list; the environment is the only varying input. -/
def checkEnvironmentMain (env : Env) : RunResult :=
  checkEnvironment env packages

/-- Modelled from the spec for the refinement claim: the same loop
followed by the reporting code as unconditional post-loop sequential
code (the spec preserves the loop/else idiom "as plain sequential
logic").  Post-loop sequential code runs after a completed loop and
after a `break`, but not past an uncaught exception. -/
def checkEnvironmentSeq (env : Env) (pkgs : List String) : RunResult :=
  match importLoop env [] pkgs with
  | .completed bad => reportPhase bad
  | .broke bad => reportPhase bad
  | .raised _ => { stdoutLines := [], exitCode := 1, uncaught := true }

/-- An environment in which every name either resolves or is
unresolvable (raises `ImportError`), as in the two-outcome
resolution contract `resolve(name) -> Result<Unit, NotFoundError>`. -/
def resolvedEnv (resolves : String → Bool) : Env :=
  fun p => if resolves p then .ok else .importError

/-- Events of a run, for the temporal claims: a load attempt on a name,
a write to standard output, and the process exit with a status. -/
inductive Event
  | attempt (name : String)
  | stdoutWrite (text : String)
  | exitWith (code : Nat)
deriving DecidableEq, Repr

/-- Is the event a write to standard output? -/
def Event.isWrite : Event → Bool
  | .stdoutWrite _ => true
  | _ => false

/-- Is the event the process exit? -/
def Event.isExit : Event → Bool
  | .exitWith _ => true
  | _ => false

/-- Events of the `else` clause: one `print` call (the joined lines
plus the trailing newline `print` adds) then `sys.exit(1)` when `bad`
is non-empty; otherwise the script just ends with status 0. -/
def reportEvents (bad : List String) : List Event :=
  if bad.length > 0 then
    [.stdoutWrite (String.intercalate "\n" bad ++ "\n"), .exitWith 1]
  else
    [.exitWith 0]

/-- Event trace of the loop and what follows it, carrying `bad`:
each iteration attempts a load; an uncaught exception aborts with
status 1 right after the failing attempt. -/
def traceLoop (env : Env) (bad : List String) : List String → List Event
  | [] => reportEvents bad
  | p :: ps =>
    match env p with
    | .ok => .attempt p :: traceLoop env bad ps
    | .importError => .attempt p :: traceLoop env (bad ++ [failMsg p]) ps
    | .otherError => [.attempt p, .exitWith 1]

/-- Event trace of one run of the script on a package list. -/
def runTrace (env : Env) (pkgs : List String) : List Event :=
  traceLoop env [] pkgs

/-- The load attempts recorded in a trace, in order. -/
def attemptsOf (tr : List Event) : List String :=
  tr.filterMap fun e =>
    match e with
    | .attempt n => some n
    | _ => none

/- ### Helper lemmas -/

/-- If no name in the list raises a non-`ImportError` exception, the
loop completes, appending one message per `ImportError` name, in list
order. -/
theorem importLoop_completed (env : Env) (pkgs : List String)
    (h : ∀ p ∈ pkgs, env p ≠ .otherError) (bad : List String) :
    importLoop env bad pkgs =
      .completed (bad ++ (pkgs.filter (fun p => env p == .importError)).map failMsg) := by
  induction pkgs generalizing bad with
  | nil => simp [importLoop]
  | cons p ps ih =>
    have hp : env p ≠ .otherError := h p (List.mem_cons_self p ps)
    have hps : ∀ q ∈ ps, env q ≠ .otherError := fun q hq => h q (List.mem_cons_of_mem p hq)
    cases hcase : env p with
    | ok => simp [importLoop, hcase, ih hps, List.filter_cons, hcase]
    | importError =>
      simp [importLoop, hcase, ih hps, List.filter_cons, hcase, List.append_assoc]
    | otherError => exact absurd hcase hp

/-- A two-outcome environment never produces `otherError`. -/
theorem resolvedEnv_ne_otherError (resolves : String → Bool) (p : String) :
    resolvedEnv resolves p ≠ .otherError := by
  unfold resolvedEnv
  cases resolves p <;> simp

/-- In a two-outcome environment, the `ImportError` test is the
negation of resolution. -/
theorem resolvedEnv_importError_iff (resolves : String → Bool) (p : String) :
    (resolvedEnv resolves p == .importError) = !resolves p := by
  unfold resolvedEnv
  cases resolves p <;> simp

/-- Closed form for the whole run in a two-outcome environment: the
lines printed are exactly one `failMsg` per unresolvable name, in list
order, fed to the reporting phase. -/
theorem checkEnvironment_resolved (resolves : String → Bool) (pkgs : List String) :
    checkEnvironment (resolvedEnv resolves) pkgs =
      reportPhase ((pkgs.filter (fun p => !resolves p)).map failMsg) := by
  unfold checkEnvironment
  rw [importLoop_completed (resolvedEnv resolves) pkgs
    (fun p _ => resolvedEnv_ne_otherError resolves p) []]
  simp only [List.nil_append]
  have hpred : (fun p => resolvedEnv resolves p == LoadOutcome.importError) =
      (fun p => !resolves p) := by
    funext p
    exact resolvedEnv_importError_iff resolves p
  rw [hpred]

/-- The loop body contains no `break`: the loop never produces the
`broke` exit. -/
theorem importLoop_ne_broke (env : Env) (pkgs : List String) (bad b : List String) :
    importLoop env bad pkgs ≠ .broke b := by
  induction pkgs generalizing bad with
  | nil => simp [importLoop]
  | cons p ps ih =>
    cases hcase : env p <;> simp [importLoop, hcase]
    · exact ih bad
    · exact ih (bad ++ [failMsg p])

/-- If some name in the list raises a non-`ImportError` exception, the
loop exits by propagation. -/
theorem importLoop_raised (env : Env) (pkgs : List String)
    (h : ∃ p ∈ pkgs, env p = .otherError) (bad : List String) :
    ∃ q ∈ pkgs, importLoop env bad pkgs = .raised q ∧ env q = .otherError := by
  induction pkgs generalizing bad with
  | nil => simp at h
  | cons p ps ih =>
    cases hcase : env p with
    | ok =>
      have hps : ∃ q ∈ ps, env q = .otherError := by
        rcases h with ⟨q, hq, hqo⟩
        rcases List.mem_cons.mp hq with rfl | hq
        · exact absurd hqo (by simp [hcase])
        · exact ⟨q, hq, hqo⟩
      rcases ih hps bad with ⟨q, hq, hloop, hqo⟩
      exact ⟨q, List.mem_cons_of_mem p hq, by simpa [importLoop, hcase] using hloop, hqo⟩
    | importError =>
      have hps : ∃ q ∈ ps, env q = .otherError := by
        rcases h with ⟨q, hq, hqo⟩
        rcases List.mem_cons.mp hq with rfl | hq
        · exact absurd hqo (by simp [hcase])
        · exact ⟨q, hq, hqo⟩
      rcases ih hps (bad ++ [failMsg p]) with ⟨q, hq, hloop, hqo⟩
      exact ⟨q, List.mem_cons_of_mem p hq, by simpa [importLoop, hcase] using hloop, hqo⟩
    | otherError =>
      exact ⟨p, List.mem_cons_self p ps, by simp [importLoop, hcase], hcase⟩

/-- The loop depends only on the outcomes of the names it visits. -/
theorem importLoop_congr (env1 env2 : Env) (pkgs : List String)
    (h : ∀ p ∈ pkgs, env1 p = env2 p) (bad : List String) :
    importLoop env1 bad pkgs = importLoop env2 bad pkgs := by
  induction pkgs generalizing bad with
  | nil => rfl
  | cons p ps ih =>
    have hp : env1 p = env2 p := h p (List.mem_cons_self p ps)
    have hps : ∀ q ∈ ps, env1 q = env2 q := fun q hq => h q (List.mem_cons_of_mem p hq)
    cases hcase : env2 p <;>
      simp [importLoop, hp, hcase, ih hps]

/-- The event trace depends only on the outcomes of the names it
visits. -/
theorem traceLoop_congr (env1 env2 : Env) (pkgs : List String)
    (h : ∀ p ∈ pkgs, env1 p = env2 p) (bad : List String) :
    traceLoop env1 bad pkgs = traceLoop env2 bad pkgs := by
  induction pkgs generalizing bad with
  | nil => rfl
  | cons p ps ih =>
    have hp : env1 p = env2 p := h p (List.mem_cons_self p ps)
    have hps : ∀ q ∈ ps, env1 q = env2 q := fun q hq => h q (List.mem_cons_of_mem p hq)
    cases hcase : env2 p <;>
      simp [traceLoop, hp, hcase, ih hps]

/-- In a two-outcome environment the trace is all the attempts, in list
order, followed by the reporting events. -/
theorem traceLoop_resolved (resolves : String → Bool) (pkgs : List String) (bad : List String) :
    traceLoop (resolvedEnv resolves) bad pkgs =
      pkgs.map Event.attempt ++
        reportEvents (bad ++ (pkgs.filter (fun p => !resolves p)).map failMsg) := by
  induction pkgs generalizing bad with
  | nil => simp [traceLoop]
  | cons p ps ih =>
    cases hcase : resolves p with
    | true =>
      simp [traceLoop, resolvedEnv, hcase, ih, List.filter_cons]
    | false =>
      simp [traceLoop, resolvedEnv, hcase, ih, List.filter_cons, List.append_assoc]

/-- The reporting events contain no load attempt. -/
theorem attemptsOf_reportEvents (bad : List String) :
    attemptsOf (reportEvents bad) = [] := by
  unfold reportEvents
  split <;> simp [attemptsOf]

/-- Attempts of an attempt-prefixed trace. -/
theorem attemptsOf_append_attempts (pkgs : List String) (tr : List Event) :
    attemptsOf (pkgs.map Event.attempt ++ tr) = pkgs ++ attemptsOf tr := by
  induction pkgs with
  | nil => rfl
  | cons p ps ih => simp [attemptsOf, List.filterMap_cons] at ih ⊢; exact ih

/-- The reporting events write standard output at most once and exit
exactly once. -/
theorem reportEvents_counts (bad : List String) :
    (reportEvents bad).countP (fun e => Event.isWrite e) ≤ 1 ∧
      (reportEvents bad).countP (fun e => Event.isExit e) = 1 := by
  unfold reportEvents
  split <;> simp [List.countP_cons, Event.isWrite, Event.isExit]

/-- A list of attempt events contains no write and no exit. -/
theorem attempts_counts (pkgs : List String) :
    (pkgs.map Event.attempt).countP (fun e => Event.isWrite e) = 0 ∧
      (pkgs.map Event.attempt).countP (fun e => Event.isExit e) = 0 := by
  induction pkgs with
  | nil => simp
  | cons p ps ih =>
    simp [List.countP_cons, Event.isWrite, Event.isExit]

/-- Two distinct names give two distinct failure messages. -/
theorem failMsg_injective : Function.Injective failMsg := by
  intro a b h
  unfold failMsg at h
  have hdata := congrArg String.data h
  simp only [String.data_append] at hdata
  exact String.ext (List.append_cancel_left hdata)

/-- The reporting phase prints exactly the collected messages (the
join of an empty list prints nothing because the branch is skipped). -/
theorem reportPhase_stdoutLines (bad : List String) :
    (reportPhase bad).stdoutLines = bad := by
  unfold reportPhase
  split
  · rfl
  · next h =>
    have hlen : bad.length = 0 := Nat.eq_zero_of_not_pos h
    exact (List.length_eq_zero.mp hlen).symm

/-- The reporting phase never aborts. -/
theorem reportPhase_uncaught (bad : List String) :
    (reportPhase bad).uncaught = false := by
  unfold reportPhase
  split <;> rfl

/- ### The claims -/

/-- Claim C1: for every configured capability list containing at least
one unresolvable name, the checker terminates with exit status 1,
without an uncaught exception, and writes to standard output exactly
one line per unresolvable name, in the original list order, each line
being exactly the failure message for that name. -/
theorem claim1_failures_reported (resolves : String → Bool) (pkgs : List String)
    (h : ∃ p ∈ pkgs, resolves p = false) :
    checkEnvironment (resolvedEnv resolves) pkgs =
      { stdoutLines := (pkgs.filter (fun p => !resolves p)).map failMsg,
        exitCode := 1, uncaught := false } := by
  rw [checkEnvironment_resolved]
  rcases h with ⟨p, hp, hfalse⟩
  have hmem : p ∈ pkgs.filter (fun q => !resolves q) := by
    simp [List.mem_filter, hp, hfalse]
  have hne : pkgs.filter (fun q => !resolves q) ≠ [] := by
    intro hnil
    rw [hnil] at hmem
    simp at hmem
  have hlen : 0 < ((pkgs.filter (fun q => !resolves q)).map failMsg).length := by
    rw [List.length_map, List.length_pos]
    exact hne
  unfold reportPhase
  rw [if_pos hlen]

/-- Witness for C1 at a concrete input. -/
theorem claim1_witness :
    checkEnvironment (resolvedEnv (fun _ => false)) ["pandas"] =
      { stdoutLines := ["Can\x27t import pandas"], exitCode := 1, uncaught := false } :=
  (claim1_failures_reported (fun _ => false) ["pandas"]
    ⟨"pandas", by simp, rfl⟩).trans (by decide)

/-- Claim C2: for every configured capability list in which every name
resolves successfully, the checker terminates with exit status 0 and
produces no output on standard output. -/
theorem claim2_success_silent (resolves : String → Bool) (pkgs : List String)
    (h : ∀ p ∈ pkgs, resolves p = true) :
    checkEnvironment (resolvedEnv resolves) pkgs =
      { stdoutLines := [], exitCode := 0, uncaught := false } := by
  rw [checkEnvironment_resolved]
  have hfilter : pkgs.filter (fun p => !resolves p) = [] := by
    rw [List.filter_eq_nil_iff]
    intro p hp
    simp [h p hp]
  rw [hfilter]
  rfl

/-- Witness for C2 at a concrete input: the shipped list with every
name resolving. -/
theorem claim2_witness :
    checkEnvironment (resolvedEnv (fun _ => true)) packages =
      { stdoutLines := [], exitCode := 0, uncaught := false } :=
  claim2_success_silent (fun _ => true) packages (fun _ _ => rfl)

/-- Claim C3: the check never short-circuits.  For every list, every
name is attempted (the attempts of the run trace are exactly the
configured list, whatever fails); and on a 4-name list whose first and
third names fail while the second and fourth resolve, both failure
lines appear, in that order. -/
theorem claim3_no_short_circuit (resolves : String → Bool) (pkgs : List String) :
    attemptsOf (runTrace (resolvedEnv resolves) pkgs) = pkgs ∧
      ∀ a b c d : String, resolves a = false → resolves b = true →
        resolves c = false → resolves d = true →
        (checkEnvironment (resolvedEnv resolves) [a, b, c, d]).stdoutLines =
          [failMsg a, failMsg c] := by
  constructor
  · unfold runTrace
    rw [traceLoop_resolved, attemptsOf_append_attempts, attemptsOf_reportEvents,
      List.append_nil]
  · intro a b c d ha hb hc hd
    rw [checkEnvironment_resolved, reportPhase_stdoutLines]
    simp [List.filter_cons, ha, hb, hc, hd]

/-- Witness for C3 at a concrete input: the second and fourth shipped
packages resolve, the first and third do not. -/
theorem claim3_witness :
    attemptsOf (runTrace
        (resolvedEnv (fun s => s == "IPython" || s == "pyarrow")) packages) = packages ∧
      (checkEnvironment (resolvedEnv (fun s => s == "IPython" || s == "pyarrow"))
          ["pandas", "IPython", "seaborn", "pyarrow"]).stdoutLines =
        [failMsg "pandas", failMsg "seaborn"] := by
  have h := claim3_no_short_circuit (fun s => s == "IPython" || s == "pyarrow") packages
  exact ⟨h.1, h.2 "pandas" "IPython" "seaborn" "pyarrow"
    (by decide) (by decide) (by decide) (by decide)⟩

/-- Counterexample to claim C4 as stated.  The claim says that for any
cause of load failure — missing or malformed capability — the failure
is caught at the load attempt and becomes a report line, and no load
failure aborts the process before the final report.  But the `except`
clause catches only `ImportError`: in an environment where loading the
first configured package raises an exception of any other class (a
malformed package, e.g. one whose top-level code raises), the process
aborts with an uncaught exception and writes no report line at all. -/
theorem claim4_counterexample :
    checkEnvironment
        (fun p => if p = "pandas" then LoadOutcome.otherError else LoadOutcome.ok)
        packages =
      { stdoutLines := [], exitCode := 1, uncaught := true } := by
  decide

/-- Claim C4 (amended): for every capability whose load attempt fails
with an `ImportError`, the failure is caught at the point of the load
attempt and converted into a report line rather than propagated, and no
such failure aborts the process before the final report; a load failure
of any other exception kind is not caught — it propagates, aborts the
process, and nothing is written to standard output. -/
theorem claim4_import_errors_caught (env : Env) (pkgs : List String) :
    ((∀ p ∈ pkgs, env p ≠ .otherError) →
      (checkEnvironment env pkgs).uncaught = false ∧
        (checkEnvironment env pkgs).stdoutLines =
          (pkgs.filter (fun p => env p == .importError)).map failMsg) ∧
    ((∃ p ∈ pkgs, env p = .otherError) →
      checkEnvironment env pkgs =
        { stdoutLines := [], exitCode := 1, uncaught := true }) := by
  constructor
  · intro h
    have hloop := importLoop_completed env pkgs h []
    unfold checkEnvironment
    rw [hloop, List.nil_append]
    exact ⟨reportPhase_uncaught _, reportPhase_stdoutLines _⟩
  · intro h
    rcases importLoop_raised env pkgs h [] with ⟨q, _, hloop, _⟩
    unfold checkEnvironment
    rw [hloop]

/-- Witness for the amended C4, discharging each hypothesis: one
environment with only `ImportError` failures, one with a failure the
`except` clause does not catch. -/
theorem claim4_witness :
    (checkEnvironment (resolvedEnv (fun _ => false)) packages).uncaught = false ∧
      checkEnvironment (fun _ => LoadOutcome.otherError) packages =
        { stdoutLines := [], exitCode := 1, uncaught := true } := by
  constructor
  · exact ((claim4_import_errors_caught (resolvedEnv (fun _ => false)) packages).1
      (fun p _ => resolvedEnv_ne_otherError (fun _ => false) p)).1
  · exact (claim4_import_errors_caught (fun _ => LoadOutcome.otherError) packages).2
      ⟨"pandas", by decide, rfl⟩

/-- Claim C5: two runs against environments with the same resolution
outcome for every configured name produce identical standard output,
identical exit status, and identical event traces. -/
theorem claim5_idempotent_runs (env1 env2 : Env) (pkgs : List String)
    (h : ∀ p ∈ pkgs, env1 p = env2 p) :
    checkEnvironment env1 pkgs = checkEnvironment env2 pkgs ∧
      runTrace env1 pkgs = runTrace env2 pkgs := by
  constructor
  · unfold checkEnvironment
    rw [importLoop_congr env1 env2 pkgs h []]
  · unfold runTrace
    exact traceLoop_congr env1 env2 pkgs h []

/-- Witness for C5 at a concrete input: two syntactically different
environments with the same outcome on every configured name. -/
theorem claim5_witness :
    checkEnvironment (resolvedEnv (fun _ => true)) packages =
        checkEnvironment (fun _ => LoadOutcome.ok) packages ∧
      runTrace (resolvedEnv (fun _ => true)) packages =
        runTrace (fun _ => LoadOutcome.ok) packages :=
  claim5_idempotent_runs (resolvedEnv (fun _ => true)) (fun _ => LoadOutcome.ok)
    packages (fun _ _ => rfl)

/-- Claim C6: the configured capability list is the fixed literal of
exactly the four names pandas, IPython, seaborn, pyarrow in that order,
and the entry point consults nothing but that literal — for every
environment it behaves as the checker on that literal list. -/
theorem claim6_fixed_configuration :
    packages = ["pandas", "IPython", "seaborn", "pyarrow"] ∧
      packages.length = 4 ∧
      ∀ env : Env, checkEnvironmentMain env =
        checkEnvironment env ["pandas", "IPython", "seaborn", "pyarrow"] :=
  ⟨rfl, rfl, fun _ => rfl⟩

/-- Claim C7: on the empty configured capability list the checker
produces no output and terminates with exit status 0, in every
environment. -/
theorem claim7_empty_list (env : Env) :
    checkEnvironment env [] =
        { stdoutLines := [], exitCode := 0, uncaught := false } ∧
      runTrace env [] = [Event.exitWith 0] := by
  constructor <;> rfl

/-- Claim C8: the loop never exits early by `break`, so the `else`
branch of the loop/else idiom behaves as unconditional post-loop
sequential code: the script equals its sequential rewriting on every
environment and every list; and for every resolution outcome of the
four configured names the loop completes (the `else` branch runs). -/
theorem claim8_loop_else_equivalence (env : Env) (pkgs : List String) :
    checkEnvironment env pkgs = checkEnvironmentSeq env pkgs ∧
      ∀ resolves : String → Bool, ∃ bad,
        importLoop (resolvedEnv resolves) [] packages = .completed bad := by
  constructor
  · unfold checkEnvironment checkEnvironmentSeq
    cases hcase : importLoop env [] pkgs with
    | completed bad => rfl
    | broke bad => exact absurd hcase (importLoop_ne_broke env pkgs [] bad)
    | raised q => rfl
  · intro resolves
    exact ⟨_, importLoop_completed (resolvedEnv resolves) packages
      (fun p _ => resolvedEnv_ne_otherError resolves p) []⟩

/-- Claim C9: the run trace is all the load attempts, in list order,
followed by a tail in which standard output is written at most once and
the exit status exactly once; over the whole run, standard output is
written at most once and the exit status exactly once, and only after
the pass over the whole list. -/
theorem claim9_output_after_pass (resolves : String → Bool) (pkgs : List String) :
    ∃ tail, runTrace (resolvedEnv resolves) pkgs = pkgs.map Event.attempt ++ tail ∧
      tail.countP (fun e => Event.isWrite e) ≤ 1 ∧
      tail.countP (fun e => Event.isExit e) = 1 ∧
      (runTrace (resolvedEnv resolves) pkgs).countP (fun e => Event.isWrite e) ≤ 1 ∧
      (runTrace (resolvedEnv resolves) pkgs).countP (fun e => Event.isExit e) = 1 := by
  have htrace : runTrace (resolvedEnv resolves) pkgs =
      pkgs.map Event.attempt ++
        reportEvents ((pkgs.filter (fun p => !resolves p)).map failMsg) := by
    unfold runTrace
    rw [traceLoop_resolved, List.nil_append]
  refine ⟨_, htrace, (reportEvents_counts _).1, (reportEvents_counts _).2, ?_, ?_⟩
  · rw [htrace, List.countP_append, (attempts_counts pkgs).1]
    simpa using (reportEvents_counts _).1
  · rw [htrace, List.countP_append, (attempts_counts pkgs).2]
    simpa using (reportEvents_counts _).2

/-- Claim C10: the result set never exceeds the configured list in
size — on any list the number of failure lines is at most the length of
the list; and on the shipped list every line is the failure message of
exactly one failing configured name and no name contributes more than
one line. -/
theorem claim10_result_bounded (resolves : String → Bool) :
    (∀ pkgs : List String,
      (checkEnvironment (resolvedEnv resolves) pkgs).stdoutLines.length ≤ pkgs.length) ∧
      (∀ p : String,
        (checkEnvironmentMain (resolvedEnv resolves)).stdoutLines.count (failMsg p) ≤ 1) ∧
      ∀ line ∈ (checkEnvironmentMain (resolvedEnv resolves)).stdoutLines,
        ∃ p ∈ packages, resolves p = false ∧ line = failMsg p := by
  have hmain : (checkEnvironmentMain (resolvedEnv resolves)).stdoutLines =
      (packages.filter (fun p => !resolves p)).map failMsg := by
    unfold checkEnvironmentMain
    rw [checkEnvironment_resolved, reportPhase_stdoutLines]
  refine ⟨?_, ?_, ?_⟩
  · intro pkgs
    rw [checkEnvironment_resolved, reportPhase_stdoutLines, List.length_map]
    exact List.length_filter_le _ _
  · intro p
    rw [hmain]
    have hnodup : ((packages.filter (fun q => !resolves q)).map failMsg).Nodup :=
      List.Nodup.map failMsg_injective (List.Nodup.filter _ (by decide))
    exact List.nodup_iff_count_le_one.mp hnodup (failMsg p)
  · intro line hline
    rw [hmain] at hline
    rcases List.mem_map.mp hline with ⟨p, hp, rfl⟩
    rcases List.mem_filter.mp hp with ⟨hmem, hres⟩
    exact ⟨p, hmem, by simpa using hres, rfl⟩

/-- Witness for C10 at a concrete input: every name failing. -/
theorem claim10_witness :
    (checkEnvironment (resolvedEnv (fun _ => false)) packages).stdoutLines.length ≤
        packages.length ∧
      (checkEnvironmentMain (resolvedEnv (fun _ => false))).stdoutLines.count
          (failMsg "pandas") ≤ 1 ∧
      ∃ p ∈ packages, (fun _ => false : String → Bool) p = false ∧
        failMsg "pandas" = failMsg p := by
  have h := claim10_result_bounded (fun _ => false)
  exact ⟨h.1 packages, h.2.1 "pandas", h.2.2 (failMsg "pandas") (by decide)⟩
